import Mathlib

/-!
Shallow embedding of the driver's index-management operations and the
raw-command cursor (`RunCommandCursor`), translated from the TypeScript
source (`operations/indexes.ts` and `cursor/run_command_cursor.ts`).
JavaScript objects and `Map`s are embedded as association lists
(`List (String × _)`) so that insertion order — semantically meaningful
for index keys and wire commands — is preserved.  JavaScript numbers are
embedded as `Int` (all values relevant here are integral).
-/

set_option autoImplicit false

namespace Driver

/-- `IndexDirection = -1 | 1 | '2d' | '2dsphere' | 'text' | 'geoHaystack' | 'hashed' | number`:
a JS number or one of a few literal strings. -/
inductive IndexDirection where
  | num (n : Int)
  | str (s : String)
deriving DecidableEq, Repr

/-- How JS stringifies an `IndexDirection` (used by `Array.prototype.join`). -/
def IndexDirection.toStr : IndexDirection → String
  | .num n => toString n
  | .str s => s

/-- An opaque BSON value, enough to carry caller-supplied option values
(`unique: true`, `expireAfterSeconds: 3600`, nested documents, ...). -/
inductive BsonValue where
  | int (n : Int)
  | str (s : String)
  | bool (b : Bool)
  | doc (entries : List (String × BsonValue))

/-- JS `Map.prototype.set` / object property assignment on an association
list: an existing key is updated in place (its position is kept), a new
key is appended at the end. -/
def mapSet {α : Type} (m : List (String × α)) (k : String) (v : α) : List (String × α) :=
  if m.any (fun p => p.1 = k) then
    m.map (fun p => if p.1 = k then (k, v) else p)
  else
    m ++ [(k, v)]

/-- First value stored under key `k` (JS `Map.prototype.get` on a
deduplicated entry list). -/
def mapLookup {α : Type} (m : List (String × α)) (k : String) : Option α :=
  (m.find? (fun p => p.1 = k)).map (·.2)

/-- `new Map(entries)`: sequential `set` of each entry into an empty map. -/
def jsNewMap {α : Type} (entries : List (String × α)) : List (String × α) :=
  entries.foldl (fun m p => mapSet m p.1 p.2) []

/-- One element of an `IndexSpecification`:
`string | [string, IndexDirection] | { [key]: IndexDirection } | Map<string, IndexDirection>`.
A `[string]` array of length one is represented by `tuple` with no direction
(the source reads `spec[1] ?? 1`). -/
inductive IndexSpecItem where
  | str (s : String)
  | tuple (s : String) (d : Option IndexDirection)
  | obj (entries : List (String × IndexDirection))
  | map (entries : List (String × IndexDirection))
deriving DecidableEq, Repr

/-- `IndexSpecification = OneOrMore<...>`.  The source's top-level test
`!Array.isArray(indexSpec) || isSingleIndexTuple(indexSpec)` decides whether
the input is one item or a list of items; the constructors record the
outcome of that test. -/
inductive IndexSpecification where
  | one (item : IndexSpecItem)
  | many (items : List IndexSpecItem)
deriving DecidableEq, Repr

/-- The per-item body of the loop in `constructIndexDescriptionMap`. -/
def setIndexSpec (key : List (String × IndexDirection)) :
    IndexSpecItem → List (String × IndexDirection)
  | .str s => mapSet key s (.num 1)
  | .tuple s d => mapSet key s (d.getD (.num 1))
  | .map entries => entries.foldl (fun k p => mapSet k p.1 p.2) key
  | .obj entries => entries.foldl (fun k p => mapSet k p.1 p.2) key

/-- `constructIndexDescriptionMap`: converts an `IndexSpecification` into a
`Map` (an ordered key list) valid as a `key` for the createIndexes command. -/
def constructIndexDescriptionMap : IndexSpecification → List (String × IndexDirection)
  | .one item => setIndexSpec [] item
  | .many items => items.foldl setIndexSpec []

/-- `VALID_INDEX_OPTIONS`: the option names the `createIndexes` server
command accepts. -/
def VALID_INDEX_OPTIONS : List String :=
  [ "background", "unique", "name", "partialFilterExpression", "sparse",
    "hidden", "expireAfterSeconds", "storageEngine", "collation", "version",
    "weights", "default_language", "language_override", "textIndexVersion",
    "2dsphereIndexVersion", "bits", "min", "max", "bucketSize",
    "wildcardProjection" ]

/-- The `key` field of a user `IndexDescription`:
`{ [key: string]: IndexDirection } | Map<string, IndexDirection>`. -/
inductive KeyInput where
  | map (entries : List (String × IndexDirection))
  | obj (entries : List (String × IndexDirection))
deriving DecidableEq, Repr

/-- A value stored in an (entries view of an) index description:
the `key` map, the `name` string, or an opaque option value. -/
inductive DescValue where
  | keyMap (entries : List (String × IndexDirection))
  | str (s : String)
  | bson (v : BsonValue)

/-- A caller-supplied `IndexDescription`: the mandatory `key`, the optional
`name`, and the remaining caller-supplied option entries (in insertion
order; by construction none of them is named `key` or `name`). -/
structure IndexDescription where
  key : KeyInput
  name : Option String := none
  opts : List (String × BsonValue) := []

/-- `Object.entries(description)`: every own enumerable property of the
description, `key` and `name` included. -/
def IndexDescription.entries (d : IndexDescription) : List (String × DescValue) :=
  [("key", .keyMap (match d.key with | .map e => e | .obj e => e))]
    ++ (match d.name with | some n => [("name", .str n)] | none => [])
    ++ d.opts.map (fun p => (p.1, DescValue.bson p.2))

/-- `resolveIndexDescription`: keeps only the entries whose name is in
`VALID_INDEX_OPTIONS` and renames `version` to `v`. -/
def resolveIndexDescription (description : IndexDescription) : List (String × DescValue) :=
  (description.entries.filter (fun p => VALID_INDEX_OPTIONS.contains p.1)).map
    (fun p => if p.1 = "version" then ("v", p.2) else p)

/-- `Array.from(key).flat().join('_')`: the derived default index name. -/
def defaultIndexName (key : List (String × IndexDirection)) : String :=
  "_".intercalate (key.map (fun p => [p.1, p.2.toStr])).flatten

/-- A resolved index description `{...validIndexOptions, name, key}`,
kept as the ordered entry list of the resulting JS object. -/
abbrev ResolvedIndexDescription := List (String × DescValue)

/-- The body of `indexes.map(...)` in the `CreateIndexesOperation`
constructor: normalize `key` to a `Map`, derive the name when absent, keep
only valid options, and assemble `{...validIndexOptions, name, key}`. -/
def resolveUserIndex (userIndex : IndexDescription) : ResolvedIndexDescription :=
  let key := match userIndex.key with
    | .map e => e
    | .obj e => jsNewMap e
  let name := match userIndex.name with
    | some n => n
    | none => defaultIndexName key
  let validIndexOptions := resolveIndexDescription userIndex
  mapSet (mapSet validIndexOptions "name" (.str name)) "key" (.keyMap key)

/-- Errors surfaced by the modelled operations.  `MongoCompatibilityError`
and `MongoAPIError` are the two error classes the embedded source throws;
the spec calls them `CompatibilityError` and
`UnsupportedCursorOperationError` respectively. -/
inductive DriverError where
  | compatibilityError (msg : String)
  | apiError (msg : String)

/-- A value in a wire command document. -/
inductive CmdValue where
  | str (s : String)
  | int (n : Int)
  | bson (v : BsonValue)
  | indexArray (l : List ResolvedIndexDescription)
  | subdoc (entries : List (String × CmdValue))

/-- A wire command document: ordered field list, as serialized to the server. -/
abbrev Cmd := List (String × CmdValue)

/-- `CreateIndexesOptions` (the fields the embedded code reads, plus the
remaining caller options as an opaque entry list). -/
structure CreateIndexesOptions where
  commitQuorum : Option BsonValue := none
  name : Option String := none
  collation : Option BsonValue := none
  extra : List (String × BsonValue) := []

/-- `Object.entries` view of a `CreateIndexesOptions` value, used when the
options object is spread into an index description
(`{ ...options, key }` in `fromIndexSpecification`). -/
def CreateIndexesOptions.descOpts (o : CreateIndexesOptions) : List (String × BsonValue) :=
  (match o.commitQuorum with | some q => [("commitQuorum", q)] | none => [])
    ++ (match o.collation with | some c => [("collation", c)] | none => [])
    ++ o.extra

/-- `CreateIndexesOperation`: collection name, resolved index descriptions,
and the (mutable) options bag. -/
structure CreateIndexesOperation where
  options : CreateIndexesOptions
  collectionName : String
  indexes : List ResolvedIndexDescription

/-- The private `CreateIndexesOperation` constructor. -/
def CreateIndexesOperation.make (collectionName : String)
    (indexes : List IndexDescription) (options : CreateIndexesOptions) :
    CreateIndexesOperation :=
  { options := options
    collectionName := collectionName
    indexes := indexes.map resolveUserIndex }

/-- `CreateIndexesOperation.fromIndexDescriptionArray`. -/
def CreateIndexesOperation.fromIndexDescriptionArray (collectionName : String)
    (indexes : List IndexDescription) (options : CreateIndexesOptions) :
    CreateIndexesOperation :=
  CreateIndexesOperation.make collectionName indexes options

/-- `CreateIndexesOperation.fromIndexSpecification`: builds the single
description `{ ...options, key }` where `key` is the `Map` produced by
`constructIndexDescriptionMap`. -/
def CreateIndexesOperation.fromIndexSpecification (collectionName : String)
    (indexSpec : IndexSpecification) (options : CreateIndexesOptions) :
    CreateIndexesOperation :=
  let key := constructIndexDescriptionMap indexSpec
  let description : IndexDescription :=
    { key := .map key, name := options.name, opts := options.descOpts }
  CreateIndexesOperation.make collectionName [description] options

/-- `index.name || ''`: the name stored in a resolved description, or the
empty string. -/
def resolvedName (d : ResolvedIndexDescription) : String :=
  match mapLookup d "name" with
  | some (.str s) => s
  | _ => ""

/-- Outcome of running `CreateIndexesOperation.execute` against a server:
the value returned (or error thrown), the list of wire commands sent over
the network during the call, and the operation object afterwards. -/
structure CreateExecOutcome where
  result : Except DriverError (List String)
  sent : List Cmd
  finalOp : CreateIndexesOperation

/-- `CreateIndexesOperation.execute(server, session, timeoutContext)`.
`serverWireVersion` is `maxWireVersion(server)`; `response` is the server's
reply delivered by `super.executeCommand` (whose sending of exactly one
command is recorded in `sent`). -/
def CreateIndexesOperation.execute (op : CreateIndexesOperation)
    (serverWireVersion : Int) (response : BsonValue) : CreateExecOutcome :=
  let cmd0 : Cmd :=
    [("createIndexes", .str op.collectionName), ("indexes", .indexArray op.indexes)]
  let finish : Cmd → CreateExecOutcome := fun cmd =>
    let op' : CreateIndexesOperation :=
      { op with options := { op.options with collation := none } }
    let _ := response
    { result := .ok (op.indexes.map resolvedName)
      sent := [cmd]
      finalOp := op' }
  match op.options.commitQuorum with
  | some q =>
      if serverWireVersion < 9 then
        { result := .error (.compatibilityError
            "Option `commitQuorum` for `createIndexes` not supported on servers < 4.4")
          sent := []
          finalOp := op }
      else
        finish (cmd0 ++ [("commitQuorum", .bson q)])
  | none => finish cmd0

/-- `DropIndexOperation`: collection and index name. -/
structure DropIndexOperation where
  collectionName : String
  indexName : String

/-- `DropIndexOperation.execute`: the wire command it sends. -/
def DropIndexOperation.execute (op : DropIndexOperation) : Cmd :=
  [("dropIndexes", .str op.collectionName), ("index", .str op.indexName)]

/-- `ListIndexesOptions` (the fields the embedded code reads). -/
structure ListIndexesOptions where
  batchSize : Option Int := none
  comment : Option BsonValue := none

/-- `ListIndexesOperation`. -/
structure ListIndexesOperation where
  options : ListIndexesOptions
  collectionNamespaceCollection : String

/-- `ListIndexesOperation.execute`: the wire command it sends.  Note the JS
truthiness test `this.options.batchSize ?` — a batch size of `0` yields an
empty `cursor` subdocument — and the `comment` field appended only when the
server wire version is at least 9 and a comment is defined. -/
def ListIndexesOperation.execute (op : ListIndexesOperation)
    (serverWireVersion : Int) : Cmd :=
  let cursor : List (String × CmdValue) :=
    match op.options.batchSize with
    | some n => if n = 0 then [] else [("batchSize", .int n)]
    | none => []
  let command : Cmd :=
    [("listIndexes", .str op.collectionNamespaceCollection), ("cursor", .subdoc cursor)]
  match op.options.comment with
  | some c => if serverWireVersion ≥ 9 then command ++ [("comment", .bson c)] else command
  | none => command

/-- The operation aspect flags (`Aspect` in `operations/operation.ts`). -/
inductive Aspect where
  | readOperation
  | writeOperation
  | retryable
  | cursorCreating
  | mustSelectSameServer
  | skipCollation
deriving DecidableEq, Repr

/-- `defineAspects(ListIndexesOperation, [READ_OPERATION, RETRYABLE, CURSOR_CREATING])`. -/
def ListIndexesOperation.aspects : List Aspect :=
  [.readOperation, .retryable, .cursorCreating]

/-- `defineAspects(CreateIndexesOperation, [WRITE_OPERATION])`. -/
def CreateIndexesOperation.aspects : List Aspect :=
  [.writeOperation]

/-- `defineAspects(DropIndexOperation, [WRITE_OPERATION])`. -/
def DropIndexOperation.aspects : List Aspect :=
  [.writeOperation]

/-- Modelled from the spec: the execution engine (`executeOperation`, not in
the embedded sources) retries an operation only when its aspects include
RETRYABLE (§4.2 step 5: retry "restricted to the RETRYABLE aspect"). -/
def engineClassifiesRetryable (aspects : List Aspect) : Bool :=
  aspects.contains .retryable

/-- The cursor protocol states of the spec's state machine (§4.3). -/
inductive CursorState where
  | uninitialized
  | initializing
  | opened
  | exhausted
  | closed
deriving DecidableEq, Repr

/-- An abstract server handle identity (bound by the cursor for `getMore`). -/
abbrev ServerId := Nat

/-- `RunCommandCursor.getMoreOptions`: the fields the allowed setters
control, attached to every subsequent `getMore`. -/
structure GetMoreOptions where
  comment : Option BsonValue := none
  maxAwaitTimeMS : Option Int := none
  batchSize : Option Int := none

/-- `RunCommandCursor`: the frozen caller-supplied command plus the state
of the underlying `AbstractCursor` (state tag, cursor `id`, bound `server`,
document buffer — modelled from the spec's §3 Cursor data model, the
`AbstractCursor` source not being part of the embedded files). -/
structure RunCommandCursor where
  command : Cmd
  namespace' : String
  getMoreOptions : GetMoreOptions := {}
  state : CursorState := .uninitialized
  id : Option Int := none
  server : Option ServerId := none
  buffer : List BsonValue := []

/-- `setComment`: sets `getMoreOptions.comment` and returns the cursor.
The source method has no state guard and cannot throw; it is embedded in
`Except` so the spec's may-fail contract is statable. -/
def RunCommandCursor.setComment (c : RunCommandCursor) (comment : BsonValue) :
    Except DriverError RunCommandCursor :=
  .ok { c with getMoreOptions := { c.getMoreOptions with comment := some comment } }

/-- `setMaxTimeMS`: sets `getMoreOptions.maxAwaitTimeMS` and returns the
cursor; no state guard in the source. -/
def RunCommandCursor.setMaxTimeMS (c : RunCommandCursor) (maxTimeMS : Int) :
    Except DriverError RunCommandCursor :=
  .ok { c with getMoreOptions := { c.getMoreOptions with maxAwaitTimeMS := some maxTimeMS } }

/-- `setBatchSize`: sets `getMoreOptions.batchSize` and returns the cursor;
no state guard in the source. -/
def RunCommandCursor.setBatchSize (c : RunCommandCursor) (batchSize : Int) :
    Except DriverError RunCommandCursor :=
  .ok { c with getMoreOptions := { c.getMoreOptions with batchSize := some batchSize } }

/-- Outcome of a cursor method call: the thrown error or returned value,
the cursor object afterwards, and the wire commands sent during the call. -/
structure CursorCallOutcome where
  result : Except DriverError Unit
  cursor : RunCommandCursor
  sent : List Cmd

/-- `clone()`: unconditionally throws `MongoAPIError`. -/
def RunCommandCursor.clone (c : RunCommandCursor) : CursorCallOutcome :=
  { result := .error (.apiError
      "Clone not supported, create a new cursor with db.runCursorCommand")
    cursor := c
    sent := [] }

/-- `withReadConcern(_)`: unconditionally throws `MongoAPIError`. -/
def RunCommandCursor.withReadConcern (c : RunCommandCursor) : CursorCallOutcome :=
  { result := .error (.apiError
      "RunCommandCursor does not support readConcern it must be attached to the command being run")
    cursor := c
    sent := [] }

/-- `addCursorFlag(_, __)`: unconditionally throws `MongoAPIError`. -/
def RunCommandCursor.addCursorFlag (c : RunCommandCursor) : CursorCallOutcome :=
  { result := .error (.apiError
      "RunCommandCursor does not support cursor flags, they must be attached to the command being run")
    cursor := c
    sent := [] }

/-- `maxTimeMS(_)`: unconditionally throws `MongoAPIError`. -/
def RunCommandCursor.maxTimeMS (c : RunCommandCursor) : CursorCallOutcome :=
  { result := .error (.apiError
      "maxTimeMS must be configured on the command document directly, to configure getMore.maxTimeMS use cursor.setMaxTimeMS()")
    cursor := c
    sent := [] }

/-- `batchSize(_)`: unconditionally throws `MongoAPIError`. -/
def RunCommandCursor.batchSize (c : RunCommandCursor) : CursorCallOutcome :=
  { result := .error (.apiError
      "batchSize must be configured on the command document directly, to configure getMore.batchSize use cursor.setBatchSize()")
    cursor := c
    sent := [] }

/-- A server reply carrying a cursor: its `id` and the batch of documents.
`id = 0` means the server-side cursor is exhausted. -/
structure CursorResponse where
  id : Int
  batch : List BsonValue

/-- The `getMore` wire request built by `RunCommandCursor.getMore`:
`new GetMoreOperation(this.namespace, this.id!, this.server!, {...options})`. -/
structure GetMoreCmd where
  namespace' : String
  cursorId : Int
  server : ServerId
  comment : Option BsonValue := none
  maxAwaitTimeMS : Option Int := none
  batchSize : Option Int := none

/-- `RunCommandCursor.getMore`: the request it issues, read off the
cursor's current `id` and bound `server` (`none` when either is unset). -/
def RunCommandCursor.getMoreCmd (c : RunCommandCursor) : Option GetMoreCmd :=
  match c.id, c.server with
  | some i, some s =>
      some { namespace' := c.namespace'
             cursorId := i
             server := s
             comment := c.getMoreOptions.comment
             maxAwaitTimeMS := c.getMoreOptions.maxAwaitTimeMS
             batchSize := c.getMoreOptions.batchSize }
  | _, _ => none

/-- Modelled from the spec (§4.3, `AbstractCursor` not being among the
embedded files): `_initialize` runs the caller's command through the
execution engine and seeds `buffer`, `id`, and `server` from the response;
`id = 0` moves the cursor directly to EXHAUSTED. -/
def initializeCursor (c : RunCommandCursor) (selectedServer : ServerId)
    (r : CursorResponse) : RunCommandCursor :=
  { c with server := some selectedServer
           id := some r.id
           buffer := r.batch
           state := if r.id = 0 then .exhausted else .opened }

/-- Modelled from the spec (§4.3): applying a `getMore` response appends
the returned documents to `buffer`, updates `id`, and moves to EXHAUSTED
when the new `id` is `0`. -/
def applyGetMoreResponse (c : RunCommandCursor) (r : CursorResponse) : RunCommandCursor :=
  { c with id := some r.id
           buffer := c.buffer ++ r.batch
           state := if r.id = 0 then .exhausted else c.state }

/-- Modelled from the spec (§4.3): the fetch loop of a fully drained
cursor.  While the cursor is OPEN, each `next()` on an empty buffer issues
the `getMore` built by `RunCommandCursor.getMore` and applies the next
server response; the run records every `getMore` request issued.  The
response list bounds the run length. -/
def driveCursor (c : RunCommandCursor) :
    List CursorResponse → RunCommandCursor × List GetMoreCmd
  | [] => (c, [])
  | r :: rs =>
      if c.state = .opened then
        match c.getMoreCmd with
        | some g =>
            let p := driveCursor (applyGetMoreResponse c r) rs
            (p.1, g :: p.2)
        | none => (c, [])
      else (c, [])

/-- The name a resolved index ends up with: the caller's, or the derived
default over the normalized key map. -/
def userIndexDefaultedName (u : IndexDescription) : String :=
  match u.name with
  | some n => n
  | none => defaultIndexName (match u.key with | .map e => e | .obj e => jsNewMap e)

/-- Concrete operation used to exercise the commitQuorum gate. -/
def quorumGateExample : CreateIndexesOperation :=
  { options := { commitQuorum := some (.str "majority") }
    collectionName := "books"
    indexes := [] }

/-- A raw-command cursor sitting in the OPEN state. -/
def openStateCursor : RunCommandCursor :=
  { command := [("ping", .int 1)]
    namespace' := "level.test"
    state := .opened }

/-- An uninitialized raw-command cursor used for the cursor-run examples. -/
def freshCursor : RunCommandCursor :=
  { command := [("ping", .int 1)]
    namespace' := "level.test" }

/-- `freshCursor` after initialization on server 3 with cursor id 7. -/
def initializedCursorId7 : RunCommandCursor :=
  initializeCursor freshCursor 3 { id := 7, batch := [] }

/-- A getMore response stream whose first reply reports a changed, still
non-zero cursor id (9). -/
def idChangingResponses : List CursorResponse :=
  [{ id := 9, batch := [] }, { id := 0, batch := [] }]

/-- A getMore response stream that echoes the initial id (7) and then ends
the cursor. -/
def idEchoingResponses : List CursorResponse :=
  [{ id := 7, batch := [] }, { id := 0, batch := [] }]

/-- Concrete operation used to exercise the returned index names. -/
def namesExampleIndexes : List IndexDescription :=
  [ { key := .obj [("a", .num 1)] },
    { key := .obj [("b", .num (-1)), ("c", .num 1)], name := some "custom" } ]

/-- Concrete list-indexes operation with a batch size and no comment. -/
def listIndexesExample : ListIndexesOperation :=
  { options := { batchSize := some 5 }
    collectionNamespaceCollection := "books" }

/-- Concrete drop-index operation. -/
def dropIndexExample : DropIndexOperation :=
  { collectionName := "books", indexName := "a_1" }

section MapLemmas

variable {α : Type}

theorem mapSet_of_not_mem (m : List (String × α)) (k : String) (v : α)
    (h : ∀ p ∈ m, p.1 ≠ k) : mapSet m k v = m ++ [(k, v)] := by
  unfold mapSet
  rw [if_neg]
  simp only [List.any_eq_true, decide_eq_true_eq, not_exists, not_and]
  exact fun p hp => h p hp

theorem mapLookup_append_self (m : List (String × α)) (k : String) (v : α)
    (h : ∀ p ∈ m, p.1 ≠ k) : mapLookup (m ++ [(k, v)]) k = some v := by
  unfold mapLookup
  rw [List.find?_append]
  have h1 : m.find? (fun p => p.1 = k) = none := by
    rw [List.find?_eq_none]
    intro p hp
    simpa using h p hp
  simp [h1]

theorem mapLookup_append_other (m : List (String × α)) (k k' : String) (v : α)
    (h : k' ≠ k) : mapLookup (m ++ [(k, v)]) k' = mapLookup m k' := by
  unfold mapLookup
  rw [List.find?_append]
  have h2 : ([(k, v)] : List (String × α)).find? (fun p => p.1 = k') = none := by
    simp
    exact fun hh => (h hh.symm).elim
  rw [h2, Option.or_none]

theorem mapLookup_replace_self (m : List (String × α)) (k : String) (v : α)
    (h : m.any (fun p => p.1 = k) = true) :
    mapLookup (m.map (fun p => if p.1 = k then (k, v) else p)) k = some v := by
  induction m with
  | nil => simp at h
  | cons p t ih =>
      by_cases hp : p.1 = k
      · simp [mapLookup, hp]
      · have ht : t.any (fun q => q.1 = k) = true := by
          simpa [List.any_cons, hp] using h
        simpa [mapLookup, hp] using ih ht

theorem mapLookup_replace_other (m : List (String × α)) (k k' : String) (v : α)
    (h : k' ≠ k) :
    mapLookup (m.map (fun p => if p.1 = k then (k, v) else p)) k' = mapLookup m k' := by
  induction m with
  | nil => simp [mapLookup]
  | cons p t ih =>
      by_cases hp : p.1 = k
      · have hk : ¬(k = k') := fun hkk => h hkk.symm
        simp only [List.map_cons, if_pos hp, mapLookup] at *
        rw [List.find?_cons_of_neg _ (by simpa using hk),
          List.find?_cons_of_neg _ (by simp [hp]; exact fun hh => h hh.symm)]
        exact ih
      · by_cases hpk : p.1 = k'
        · simp only [List.map_cons, if_neg hp, mapLookup]
          rw [List.find?_cons_of_pos _ (by simpa using hpk),
            List.find?_cons_of_pos _ (by simpa using hpk)]
        · simp only [List.map_cons, if_neg hp, mapLookup] at *
          rw [List.find?_cons_of_neg _ (by simpa using hpk),
            List.find?_cons_of_neg _ (by simpa using hpk)]
          exact ih

theorem mapLookup_mapSet_self (m : List (String × α)) (k : String) (v : α) :
    mapLookup (mapSet m k v) k = some v := by
  unfold mapSet
  by_cases h : m.any (fun p => p.1 = k) = true
  · rw [if_pos h]
    exact mapLookup_replace_self m k v h
  · rw [if_neg h]
    refine mapLookup_append_self m k v ?_
    intro p hp
    simp only [List.any_eq_true, decide_eq_true_eq, not_exists, not_and] at h
    exact h p hp

theorem mapLookup_mapSet_other (m : List (String × α)) (k k' : String) (v : α)
    (h : k' ≠ k) : mapLookup (mapSet m k v) k' = mapLookup m k' := by
  unfold mapSet
  by_cases hm : m.any (fun p => p.1 = k) = true
  · rw [if_pos hm]
    exact mapLookup_replace_other m k k' v h
  · rw [if_neg hm]
    exact mapLookup_append_other m k k' v h

theorem foldl_mapSet_of_disjoint (entries : List (String × α)) :
    ∀ acc : List (String × α), (entries.map Prod.fst).Nodup →
    (∀ p ∈ entries, ∀ q ∈ acc, q.1 ≠ p.1) →
    entries.foldl (fun m p => mapSet m p.1 p.2) acc = acc ++ entries := by
  induction entries with
  | nil => intro acc _ _; simp
  | cons p t ih =>
      intro acc hnd hdis
      rw [List.foldl_cons, mapSet_of_not_mem _ _ _ (fun q hq => hdis p (by simp) q hq)]
      rw [ih (acc ++ [(p.1, p.2)]) (by simpa using (List.nodup_cons.mp (by simpa using hnd)).2) ?_]
      · simp
      · intro p' hp' q hq
        rcases List.mem_append.mp hq with hq | hq
        · exact hdis p' (by simp [hp']) q hq
        · have hq' : q = (p.1, p.2) := by simpa using hq

          have hne : p.1 ∉ t.map Prod.fst := (List.nodup_cons.mp (by simpa using hnd)).1
          subst hq'
          intro hcontra
          refine hne ?_
          rw [show p.1 = p'.1 from hcontra]
          exact List.mem_map_of_mem Prod.fst hp'

theorem jsNewMap_of_nodup_keys (entries : List (String × α))
    (hnd : (entries.map Prod.fst).Nodup) : jsNewMap entries = entries := by
  unfold jsNewMap
  simpa using foldl_mapSet_of_disjoint entries [] hnd (by simp)

end MapLemmas

theorem resolvedName_resolveUserIndex (u : IndexDescription) :
    resolvedName (resolveUserIndex u) = userIndexDefaultedName u := by
  simp only [resolveUserIndex, resolvedName, userIndexDefaultedName]
  rw [mapLookup_mapSet_other _ _ _ _ (by decide), mapLookup_mapSet_self]

theorem driveCursor_not_opened (c : RunCommandCursor) (rs : List CursorResponse)
    (h : c.state ≠ .opened) : driveCursor c rs = (c, []) := by
  cases rs with
  | nil => rfl
  | cons r rs => simp [driveCursor, h]

theorem driveCursor_cons_no_cmd (c : RunCommandCursor) (r : CursorResponse)
    (rs : List CursorResponse) (hs : c.state = .opened) (hcmd : c.getMoreCmd = none) :
    driveCursor c (r :: rs) = (c, []) := by
  simp [driveCursor, hs, hcmd]

theorem driveCursor_cons_opened (c : RunCommandCursor) (r : CursorResponse)
    (rs : List CursorResponse) (hs : c.state = .opened) (g : GetMoreCmd)
    (hcmd : c.getMoreCmd = some g) :
    driveCursor c (r :: rs) =
      ((driveCursor (applyGetMoreResponse c r) rs).1,
        g :: (driveCursor (applyGetMoreResponse c r) rs).2) := by
  simp [driveCursor, hs, hcmd]

theorem getMoreCmd_eq (c : RunCommandCursor) (i : Int) (s : ServerId)
    (hid : c.id = some i) (hs : c.server = some s) :
    c.getMoreCmd = some
      { namespace' := c.namespace', cursorId := i, server := s,
        comment := c.getMoreOptions.comment,
        maxAwaitTimeMS := c.getMoreOptions.maxAwaitTimeMS,
        batchSize := c.getMoreOptions.batchSize } := by
  simp [RunCommandCursor.getMoreCmd, hid, hs]

theorem driveCursor_server_invariant (rs : List CursorResponse) :
    ∀ (c : RunCommandCursor) (s : ServerId), c.server = some s →
      (∀ g ∈ (driveCursor c rs).2, g.server = s) ∧
      (driveCursor c rs).1.server = some s := by
  induction rs with
  | nil =>
      intro c s h
      exact ⟨fun g hg => by simp [driveCursor] at hg, by simpa [driveCursor] using h⟩
  | cons r rs ih =>
      intro c s h
      by_cases hst : c.state = .opened
      · cases hid : c.id with
        | none =>
            have hcmd : c.getMoreCmd = none := by
              simp [RunCommandCursor.getMoreCmd, hid]
            rw [driveCursor_cons_no_cmd c r rs hst hcmd]
            exact ⟨fun g hg => by simp at hg, h⟩
        | some i =>
            have hserv : (applyGetMoreResponse c r).server = some s := by
              simpa [applyGetMoreResponse] using h
            obtain ⟨ih1, ih2⟩ := ih (applyGetMoreResponse c r) s hserv
            rw [driveCursor_cons_opened c r rs hst _ (getMoreCmd_eq c i s hid h)]
            constructor
            · intro g hg
              rcases List.mem_cons.mp hg with hg | hg
              · rw [hg]
              · exact ih1 g hg
            · exact ih2
      · rw [driveCursor_not_opened c (r :: rs) hst]
        exact ⟨fun g hg => by simp at hg, h⟩

theorem driveCursor_id_invariant (rs : List CursorResponse) :
    ∀ (c : RunCommandCursor) (i : Int), c.id = some i →
      (∀ x ∈ rs, x.id = i ∨ x.id = 0) →
      ∀ g ∈ (driveCursor c rs).2, g.cursorId = i := by
  induction rs with
  | nil => intro c i _ _ g hg; simp [driveCursor] at hg
  | cons r rs ih =>
      intro c i hid hresp g hg
      by_cases hst : c.state = .opened
      · cases hserv : c.server with
        | none =>
            have hcmd : c.getMoreCmd = none := by
              simp [RunCommandCursor.getMoreCmd, hid, hserv]
            rw [driveCursor_cons_no_cmd c r rs hst hcmd] at hg
            simp at hg
        | some s =>
            rw [driveCursor_cons_opened c r rs hst _ (getMoreCmd_eq c i s hid hserv)] at hg
            rcases List.mem_cons.mp hg with hg | hg
            · rw [hg]
            · rcases hresp r (by simp) with hr | hr
              · exact ih (applyGetMoreResponse c r) i
                  (by simp [applyGetMoreResponse, hr, hid])
                  (fun x hx => hresp x (by simp [hx])) g hg
              · have hex : (applyGetMoreResponse c r).state = .exhausted := by
                  simp [applyGetMoreResponse, hr]
                rw [driveCursor_not_opened _ rs (by simp [hex])] at hg
                simp at hg
      · rw [driveCursor_not_opened c (r :: rs) hst] at hg
        simp at hg

/-- Claim C1: index creation with a caller-ordered key object and no
caller-supplied name preserves the caller's field order in the resolved
`key` structure and derives the default name by joining the key's field
names and directions with underscores (hence, at caller input
`{a: 1, b: -1}`, key order `[["a",1],["b",-1]]` and name `"a_1_b_-1"`,
as the witness instantiates). -/
theorem createIndexes_default_name_and_key_order
    (coll : String) (entries : List (String × IndexDirection))
    (options : CreateIndexesOptions)
    (hname : options.name = none) (hnd : (entries.map Prod.fst).Nodup) :
    ∃ d, (CreateIndexesOperation.fromIndexSpecification coll
            (.one (.obj entries)) options).indexes = [d]
      ∧ mapLookup d "key" = some (.keyMap entries)
      ∧ mapLookup d "name" = some (.str (defaultIndexName entries)) := by
  have hkey : constructIndexDescriptionMap (.one (.obj entries)) = entries :=
    jsNewMap_of_nodup_keys entries hnd
  simp only [CreateIndexesOperation.fromIndexSpecification,
    CreateIndexesOperation.make, List.map]
  refine ⟨_, rfl, ?_, ?_⟩
  · simp only [resolveUserIndex, hkey, hname]
    rw [mapLookup_mapSet_self]
  · simp only [resolveUserIndex, hkey, hname]
    rw [mapLookup_mapSet_other _ _ _ _ (by decide), mapLookup_mapSet_self]

/-- Witness for C1: the worked example `{a: 1, b: -1}` with no name yields
key order `[["a",1],["b",-1]]` and default name `"a_1_b_-1"`. -/
theorem createIndexes_default_name_and_key_order_witness :
    (({} : CreateIndexesOptions).name = none)
    ∧ (([("a", IndexDirection.num 1), ("b", IndexDirection.num (-1))].map
          Prod.fst).Nodup)
    ∧ (∃ d, (CreateIndexesOperation.fromIndexSpecification "books"
            (.one (.obj [("a", .num 1), ("b", .num (-1))])) {}).indexes = [d]
        ∧ mapLookup d "key" = some (.keyMap [("a", .num 1), ("b", .num (-1))])
        ∧ mapLookup d "name" = some (.str "a_1_b_-1")) := by
  refine ⟨rfl, by decide, ?_⟩
  have h := createIndexes_default_name_and_key_order "books"
    [("a", .num 1), ("b", .num (-1))] {} rfl (by decide)
  have hdn : defaultIndexName [("a", IndexDirection.num 1), ("b", IndexDirection.num (-1))]
      = "a_1_b_-1" := rfl
  rw [hdn] at h
  exact h

/-- Claim C2: a `CreateIndexesOperation` whose options carry a non-null
`commitQuorum`, executed against a server of wire version below 9, throws
`MongoCompatibilityError` (the spec's CompatibilityError) with zero
commands sent over the network and the operation object unchanged. -/
theorem commitQuorum_compatibility_gate (op : CreateIndexesOperation)
    (w : Int) (r : BsonValue) (q : BsonValue)
    (hq : op.options.commitQuorum = some q) (hw : w < 9) :
    (op.execute w r).result = .error (.compatibilityError
        "Option `commitQuorum` for `createIndexes` not supported on servers < 4.4")
      ∧ (op.execute w r).sent = [] ∧ (op.execute w r).finalOp = op := by
  simp [CreateIndexesOperation.execute, hq, hw]

/-- Witness for C2 at a concrete operation and wire version 8. -/
theorem commitQuorum_compatibility_gate_witness :
    quorumGateExample.options.commitQuorum = some (.str "majority")
    ∧ ((8 : Int) < 9)
    ∧ (quorumGateExample.execute 8 (.int 0)).result = .error (.compatibilityError
        "Option `commitQuorum` for `createIndexes` not supported on servers < 4.4")
    ∧ (quorumGateExample.execute 8 (.int 0)).sent = []
    ∧ (quorumGateExample.execute 8 (.int 0)).finalOp = quorumGateExample := by
  have h := commitQuorum_compatibility_gate quorumGateExample 8 (.int 0)
    (.str "majority") rfl (by decide)
  exact ⟨rfl, by decide, h.1, h.2.1, h.2.2⟩

/-- Claim C3: the disallowed configuration methods of a raw-command cursor
— `withReadConcern`, `addCursorFlag`, `maxTimeMS`, `batchSize` — each throw
`MongoAPIError` (the spec's UnsupportedCursorOperationError) synchronously,
send no wire command, and leave the cursor unchanged, in every state. -/
theorem runCommandCursor_rejects_disallowed_config (c : RunCommandCursor) :
    (c.withReadConcern.result = .error (.apiError
        "RunCommandCursor does not support readConcern it must be attached to the command being run")
      ∧ c.withReadConcern.cursor = c ∧ c.withReadConcern.sent = [])
    ∧ (c.addCursorFlag.result = .error (.apiError
        "RunCommandCursor does not support cursor flags, they must be attached to the command being run")
      ∧ c.addCursorFlag.cursor = c ∧ c.addCursorFlag.sent = [])
    ∧ (c.maxTimeMS.result = .error (.apiError
        "maxTimeMS must be configured on the command document directly, to configure getMore.maxTimeMS use cursor.setMaxTimeMS()")
      ∧ c.maxTimeMS.cursor = c ∧ c.maxTimeMS.sent = [])
    ∧ (c.batchSize.result = .error (.apiError
        "batchSize must be configured on the command document directly, to configure getMore.batchSize use cursor.setBatchSize()")
      ∧ c.batchSize.cursor = c ∧ c.batchSize.sent = []) :=
  ⟨⟨rfl, rfl, rfl⟩, ⟨rfl, rfl, rfl⟩, ⟨rfl, rfl, rfl⟩, ⟨rfl, rfl, rfl⟩⟩

/-- Claim C4 (amended): every getMore issued by a raw-command cursor
targets the server captured at initialization — the server binding never
changes for the lifetime of the cursor — and carries the cursor's current
id; that current id equals the id captured at initialization whenever every
getMore response echoes that id or reports 0 (which ends fetching). -/
theorem getMore_targets_bound_server_and_current_id
    (c0 : RunCommandCursor) (s : ServerId) (r : CursorResponse)
    (rs : List CursorResponse) :
    (∀ g ∈ (driveCursor (initializeCursor c0 s r) rs).2, g.server = s)
    ∧ (driveCursor (initializeCursor c0 s r) rs).1.server = some s
    ∧ ((∀ x ∈ rs, x.id = r.id ∨ x.id = 0) →
        ∀ g ∈ (driveCursor (initializeCursor c0 s r) rs).2, g.cursorId = r.id) := by
  have hserv : (initializeCursor c0 s r).server = some s := rfl
  have hid : (initializeCursor c0 s r).id = some r.id := rfl
  obtain ⟨h1, h2⟩ := driveCursor_server_invariant rs (initializeCursor c0 s r) s hserv
  exact ⟨h1, h2, fun hresp => driveCursor_id_invariant rs _ r.id hid hresp⟩

/-- Witness for C4 (amended) on a concrete run: initialized on server 3
with id 7 and responses echoing id 7 then 0, every issued getMore targets
server 3 and id 7. -/
theorem getMore_targets_bound_server_witness :
    (∀ g ∈ (driveCursor initializedCursorId7 idEchoingResponses).2, g.server = 3)
    ∧ (driveCursor initializedCursorId7 idEchoingResponses).1.server = some 3
    ∧ (∀ g ∈ (driveCursor initializedCursorId7 idEchoingResponses).2, g.cursorId = 7) := by
  have h := getMore_targets_bound_server_and_current_id freshCursor 3
    { id := 7, batch := [] } idEchoingResponses
  exact ⟨h.1, h.2.1, h.2.2 (by decide)⟩

/-- Counterexample for C4 as stated: a cursor initialized with id 7 whose
first getMore response reports the (still non-zero) id 9; the next getMore
then targets id 9, not the id captured at initialization. -/
theorem getMore_initial_id_counterexample :
    initializedCursorId7.id = some 7
    ∧ (driveCursor initializedCursorId7 idChangingResponses).2.map
        GetMoreCmd.cursorId = [7, 9]
    ∧ (9 : Int) ≠ 7 :=
  ⟨rfl, rfl, by decide⟩

/-- Claim C5 (amended): the allowed configuration mutators `setComment`,
`setMaxTimeMS`, and `setBatchSize` succeed in every cursor state — the
source has no state guard — updating only the cursor's getMore options. -/
theorem cursor_setters_succeed_in_every_state (c : RunCommandCursor)
    (v : BsonValue) (n m : Int) :
    c.setComment v =
      .ok { c with getMoreOptions := { c.getMoreOptions with comment := some v } }
    ∧ c.setMaxTimeMS n =
      .ok { c with getMoreOptions := { c.getMoreOptions with maxAwaitTimeMS := some n } }
    ∧ c.setBatchSize m =
      .ok { c with getMoreOptions := { c.getMoreOptions with batchSize := some m } } :=
  ⟨rfl, rfl, rfl⟩

/-- Counterexample for C5 as stated: a cursor in the OPEN state — not
UNINITIALIZED — on which `setComment` succeeds instead of failing. -/
theorem cursor_setter_open_state_counterexample :
    openStateCursor.state = .opened
    ∧ CursorState.opened ≠ CursorState.uninitialized
    ∧ openStateCursor.setComment (.int 1) =
        .ok { openStateCursor with getMoreOptions := { comment := some (.int 1) } } :=
  ⟨rfl, by decide, rfl⟩

/-- Claim C6: resolving a caller index description keeps exactly the
entries whose key is a recognized createIndexes option — value unchanged,
`version` renamed to `v` — and silently discards every unrecognized key
(the resolver is total: discarding, never failing). -/
theorem resolveIndexDescription_filters_options (d : IndexDescription)
    (k : String) (v : DescValue) :
    (k, v) ∈ resolveIndexDescription d ↔
      (((k, v) ∈ d.entries ∧ k ∈ VALID_INDEX_OPTIONS ∧ k ≠ "version")
        ∨ (k = "v" ∧ ("version", v) ∈ d.entries)) := by
  unfold resolveIndexDescription
  constructor
  · intro h
    obtain ⟨p, hp, hf⟩ := List.mem_map.mp h
    obtain ⟨hpl, hpc⟩ := List.mem_filter.mp hp
    by_cases hv : p.1 = "version"
    · right
      rw [if_pos hv] at hf
      have h1 : k = "v" := (congrArg Prod.fst hf).symm
      have h2 : p.2 = v := congrArg Prod.snd hf
      have hp' : p = ("version", v) := Prod.ext hv h2
      exact ⟨h1, hp' ▸ hpl⟩
    · left
      rw [if_neg hv] at hf
      have h1 : p.1 = k := congrArg Prod.fst hf
      have h2 : p.2 = v := congrArg Prod.snd hf
      subst h1
      subst h2
      exact ⟨hpl, by simpa using hpc, hv⟩
  · rintro (⟨hmem, hvalid, hne⟩ | ⟨hk, hmem⟩)
    · refine List.mem_map.mpr ⟨(k, v), List.mem_filter.mpr ⟨hmem, ?_⟩, ?_⟩
      · simpa using hvalid
      · rw [if_neg hne]
    · subst hk
      refine List.mem_map.mpr ⟨("version", v), List.mem_filter.mpr ⟨hmem, ?_⟩, ?_⟩
      · rfl
      · rfl

/-- Claim C7: the worked-example operations send commands spelled with the
wire-protocol field-name literals: `createIndexes`/`indexes` plus
`commitQuorum` exactly when requested and supported; `listIndexes`/`cursor`
with `cursor.batchSize` for a set (non-zero) batch size; and
`dropIndexes`/`index`. -/
theorem wire_command_field_names (op : CreateIndexesOperation) (w : Int)
    (resp : BsonValue) (lop : ListIndexesOperation) (dop : DropIndexOperation) :
    (op.options.commitQuorum = none →
      (op.execute w resp).sent =
        [[("createIndexes", .str op.collectionName), ("indexes", .indexArray op.indexes)]])
    ∧ (∀ q, op.options.commitQuorum = some q → 9 ≤ w →
        (op.execute w resp).sent =
          [[("createIndexes", .str op.collectionName), ("indexes", .indexArray op.indexes),
            ("commitQuorum", .bson q)]])
    ∧ (lop.options.comment = none → ∀ n, lop.options.batchSize = some n → n ≠ 0 →
        lop.execute w = [("listIndexes", .str lop.collectionNamespaceCollection),
          ("cursor", .subdoc [("batchSize", .int n)])])
    ∧ (lop.options.comment = none → lop.options.batchSize = none →
        lop.execute w = [("listIndexes", .str lop.collectionNamespaceCollection),
          ("cursor", .subdoc [])])
    ∧ dop.execute = [("dropIndexes", .str dop.collectionName), ("index", .str dop.indexName)] := by
  refine ⟨?_, ?_, ?_, ?_, rfl⟩
  · intro h
    simp [CreateIndexesOperation.execute, h]
  · intro q hq hw
    simp [CreateIndexesOperation.execute, hq, show ¬w < 9 from not_lt.mpr hw]
  · intro hc n hn hnz
    simp [ListIndexesOperation.execute, hc, hn, hnz]
  · intro hc hn
    simp [ListIndexesOperation.execute, hc, hn]

/-- Witness for C7 at concrete operations: commitQuorum requested at wire
version 9, a batch size of 5 with no comment, and a concrete index drop. -/
theorem wire_command_field_names_witness :
    (quorumGateExample.execute 9 (.int 0)).sent =
      [[("createIndexes", .str "books"), ("indexes", .indexArray []),
        ("commitQuorum", .bson (.str "majority"))]]
    ∧ listIndexesExample.execute 9 =
        [("listIndexes", .str "books"), ("cursor", .subdoc [("batchSize", .int 5)])]
    ∧ dropIndexExample.execute =
        [("dropIndexes", .str "books"), ("index", .str "a_1")] := by
  have h := wire_command_field_names quorumGateExample 9 (.int 0)
    listIndexesExample dropIndexExample
  exact ⟨h.2.1 (.str "majority") rfl (by decide),
    h.2.2.1 rfl 5 rfl (by decide), h.2.2.2.2⟩

/-- Claim C8: `clone()` on a raw-command cursor always throws
`MongoAPIError`, regardless of cursor state, sending nothing and leaving
the cursor unchanged. -/
theorem runCommandCursor_clone_always_fails (c : RunCommandCursor) :
    c.clone.result = .error (.apiError
        "Clone not supported, create a new cursor with db.runCursorCommand")
    ∧ c.clone.cursor = c ∧ c.clone.sent = [] :=
  ⟨rfl, rfl, rfl⟩

/-- Claim C9: `ListIndexesOperation` is declared with exactly
READ_OPERATION, RETRYABLE, and CURSOR_CREATING, while
`CreateIndexesOperation` and `DropIndexOperation` carry only
WRITE_OPERATION; hence aspect-based retry gating never classifies index
creation or index drop as retryable. -/
theorem index_operation_aspects :
    ListIndexesOperation.aspects = [.readOperation, .retryable, .cursorCreating]
    ∧ CreateIndexesOperation.aspects = [.writeOperation]
    ∧ DropIndexOperation.aspects = [.writeOperation]
    ∧ engineClassifiesRetryable ListIndexesOperation.aspects = true
    ∧ engineClassifiesRetryable CreateIndexesOperation.aspects = false
    ∧ engineClassifiesRetryable DropIndexOperation.aspects = false := by
  refine ⟨rfl, rfl, rfl, by decide, by decide, by decide⟩

theorem createExecute_response_independent (op : CreateIndexesOperation)
    (w : Int) (r1 r2 : BsonValue) : op.execute w r1 = op.execute w r2 := by
  cases h : op.options.commitQuorum <;>
    simp [CreateIndexesOperation.execute, h]

theorem createExecute_ok_names (op : CreateIndexesOperation) (w : Int)
    (r : BsonValue) (hok : op.options.commitQuorum = none ∨ 9 ≤ w) :
    (op.execute w r).result = .ok (op.indexes.map resolvedName) := by
  cases hq : op.options.commitQuorum with
  | none => simp [CreateIndexesOperation.execute, hq]
  | some q =>
      rcases hok with h | h
      · rw [hq] at h
        cases h
      · simp [CreateIndexesOperation.execute, hq, show ¬w < 9 from not_lt.mpr h]

/-- Claim C10: a successful `CreateIndexesOperation` execution returns the
index names — caller-supplied or the derived default — in the order of the
input index descriptions, independent of the server's response document. -/
theorem createIndexes_returns_names_in_order (coll : String)
    (userIndexes : List IndexDescription) (options : CreateIndexesOptions)
    (w : Int) (r1 r2 : BsonValue)
    (hok : options.commitQuorum = none ∨ 9 ≤ w) :
    ((CreateIndexesOperation.fromIndexDescriptionArray coll userIndexes options).execute w r1).result
      = ((CreateIndexesOperation.fromIndexDescriptionArray coll userIndexes options).execute w r2).result
    ∧ ((CreateIndexesOperation.fromIndexDescriptionArray coll userIndexes options).execute w r1).result
      = .ok (userIndexes.map userIndexDefaultedName) := by
  constructor
  · exact congrArg CreateExecOutcome.result
      (createExecute_response_independent _ w r1 r2)
  · rw [createExecute_ok_names _ w r1 hok]
    simp only [CreateIndexesOperation.fromIndexDescriptionArray,
      CreateIndexesOperation.make, List.map_map]
    congr 1
    exact List.map_congr_left (fun u _ => resolvedName_resolveUserIndex u)

/-- Witness for C10: two different server responses yield the same result,
namely the derived name `a_1` followed by the caller-supplied `custom`. -/
theorem createIndexes_returns_names_witness :
    (((CreateIndexesOperation.fromIndexDescriptionArray "books" namesExampleIndexes {}).execute
        7 (.int 0)).result
      = ((CreateIndexesOperation.fromIndexDescriptionArray "books" namesExampleIndexes {}).execute
        7 (.str "weird")).result)
    ∧ ((CreateIndexesOperation.fromIndexDescriptionArray "books" namesExampleIndexes {}).execute
        7 (.int 0)).result = .ok ["a_1", "custom"] := by
  have h := createIndexes_returns_names_in_order "books" namesExampleIndexes {}
    7 (.int 0) (.str "weird") (.inl rfl)
  refine ⟨h.1, ?_⟩
  rw [h.2]
  rfl

end Driver
